import Mathlib

/-!
Verification development for the language-learning-assistant repository.

The Python sources are shallowly embedded: pure logic becomes Lean
functions; calls to external services (Bedrock model invocations, the
ChromaDB collection, the filesystem) become explicit parameters that carry
the outcome of the external call (Except / Option / Bool), so every
function here is total and executable.  Machine floats are modelled as
rationals.
-/

/-- Minimal JSON value model, mirroring what Python json.loads produces:
objects are kept as ordered key/value lists (duplicate keys possible in the
raw text; lookup is last-wins, as for Python dict construction). -/
inductive Json where
  | null : Json
  | bool : Bool → Json
  | num : ℚ → Json
  | str : String → Json
  | arr : List Json → Json
  | obj : List (String × Json) → Json

/-- JSON whitespace skipping (space, tab, newline, carriage return), as in
Python json.loads. -/
def skipWs (cs : List Char) : List Char :=
  cs.dropWhile (fun c => c = ' ' || c = '\t' || c = '\n' || c = '\r')

/-- Numeric value of a decimal digit list (most significant first). -/
def digitsVal (cs : List Char) : ℕ :=
  cs.foldl (fun acc c => acc * 10 + (c.toNat - '0'.toNat)) 0

/-- Numeric value of a hexadecimal digit. -/
def hexVal (c : Char) : ℕ :=
  if '0' ≤ c ∧ c ≤ '9' then c.toNat - '0'.toNat
  else if 'a' ≤ c ∧ c ≤ 'f' then c.toNat - 'a'.toNat + 10
  else if 'A' ≤ c ∧ c ≤ 'F' then c.toNat - 'A'.toNat + 10
  else 0

def isHexDigit (c : Char) : Bool :=
  ('0' ≤ c && c ≤ '9') || ('a' ≤ c && c ≤ 'f') || ('A' ≤ c && c ≤ 'F')

/-- String-literal body scanner for the JSON parser: consumes up to the
closing quote, handling the standard escapes; rejects raw control
characters (json.loads default strict mode) and invalid escapes. -/
def parseStrBody (fuel : ℕ) (cs : List Char) (acc : List Char) :
    Option (String × List Char) :=
  match fuel with
  | 0 => none
  | fuel + 1 =>
    match cs with
    | [] => none
    | '"' :: rest => some (String.mk acc.reverse, rest)
    | '\\' :: e :: rest =>
      match e with
      | '"' => parseStrBody fuel rest ('"' :: acc)
      | '\\' => parseStrBody fuel rest ('\\' :: acc)
      | '/' => parseStrBody fuel rest ('/' :: acc)
      | 'n' => parseStrBody fuel rest ('\n' :: acc)
      | 't' => parseStrBody fuel rest ('\t' :: acc)
      | 'r' => parseStrBody fuel rest ('\r' :: acc)
      | 'b' => parseStrBody fuel rest ('\x08' :: acc)
      | 'f' => parseStrBody fuel rest ('\x0c' :: acc)
      | 'u' =>
        let hx := rest.take 4
        if hx.length = 4 ∧ hx.all isHexDigit then
          let code := hx.foldl (fun a c => a * 16 + hexVal c) 0
          parseStrBody fuel (rest.drop 4) (Char.ofNat code :: acc)
        else none
      | _ => none
    | c :: rest =>
      if c.toNat < 32 then none else parseStrBody fuel rest (c :: acc)

def isDigitCh (c : Char) : Bool := '0' ≤ c && c ≤ '9'

/-- Number token per the JSON grammar: optional minus, integer part with no
leading zeros, optional fraction, optional exponent.  Value is exact as a
rational. -/
def parseNum (cs : List Char) : Option (Json × List Char) :=
  let (neg, cs1) :=
    match cs with
    | '-' :: rest => (true, rest)
    | _ => (false, cs)
  let intDigits := cs1.takeWhile isDigitCh
  if intDigits = [] then none
  else if intDigits.length > 1 ∧ intDigits.headD '0' = '0' then none
  else
    let cs2 := cs1.drop intDigits.length
    let (fracDigits, cs3) :=
      match cs2 with
      | '.' :: rest =>
        let fd := rest.takeWhile isDigitCh
        (fd, rest.drop fd.length)
      | _ => ([], cs2)
    if (match cs2 with | '.' :: _ => fracDigits.isEmpty | _ => false) then none
    else
      let (expOk, expNeg, expDigits, cs4) :=
        match cs3 with
        | 'e' :: rest | 'E' :: rest =>
          let (en, rest') :=
            match rest with
            | '+' :: r => (false, r)
            | '-' :: r => (true, r)
            | _ => (false, rest)
          let ed := rest'.takeWhile isDigitCh
          (!ed.isEmpty, en, ed, rest'.drop ed.length)
        | _ => (true, false, ([] : List Char), cs3)
      if !expOk then none
      else
        let mantissa : ℚ :=
          (digitsVal intDigits : ℚ) +
            (digitsVal fracDigits : ℚ) / ((10 : ℚ) ^ fracDigits.length)
        let scaled : ℚ :=
          if expNeg then mantissa / ((10 : ℚ) ^ digitsVal expDigits)
          else mantissa * ((10 : ℚ) ^ digitsVal expDigits)
        let v : ℚ := if neg then -scaled else scaled
        some (Json.num v, cs4)

mutual

/-- One JSON value starting at the head of the input (after optional
whitespace); returns the value and the unconsumed suffix. -/
def parseVal : ℕ → List Char → Option (Json × List Char)
  | 0, _ => none
  | fuel + 1, cs0 =>
    let cs := skipWs cs0
    match cs with
    | [] => none
    | 'n' :: rest =>
      if ['u', 'l', 'l'].isPrefixOf rest then some (Json.null, rest.drop 3)
      else none
    | 't' :: rest =>
      if ['r', 'u', 'e'].isPrefixOf rest then some (Json.bool true, rest.drop 3)
      else none
    | 'f' :: rest =>
      if ['a', 'l', 's', 'e'].isPrefixOf rest then
        some (Json.bool false, rest.drop 4)
      else none
    | '"' :: rest =>
      match parseStrBody (rest.length + 1) rest [] with
      | some (s, r) => some (Json.str s, r)
      | none => none
    | '[' :: rest =>
      let rest := skipWs rest
      (match rest with
       | ']' :: r => some (Json.arr [], r)
       | _ =>
         match parseVal fuel rest with
         | some (v, r) => parseArrTail fuel [v] r
         | none => none)
    | '\x7b' :: rest =>
      let rest := skipWs rest
      (match rest with
       | '\x7d' :: r => some (Json.obj [], r)
       | _ =>
         match parseObjPair fuel rest with
         | some (kv, r) => parseObjTail fuel [kv] r
         | none => none)
    | _ => parseNum cs

/-- Array continuation: after at least one element has been read, consume
either a comma (then another element) or the closing bracket. -/
def parseArrTail : ℕ → List Json → List Char → Option (Json × List Char)
  | 0, _, _ => none
  | fuel + 1, acc, cs =>
    match skipWs cs with
    | ']' :: r => some (Json.arr acc.reverse, r)
    | ',' :: r =>
      (match parseVal fuel r with
       | some (v, r') => parseArrTail fuel (v :: acc) r'
       | none => none)
    | _ => none

/-- One key/value pair of an object body. -/
def parseObjPair : ℕ → List Char → Option ((String × Json) × List Char)
  | 0, _ => none
  | fuel + 1, cs =>
    match skipWs cs with
    | '"' :: rest =>
      (match parseStrBody (rest.length + 1) rest [] with
       | some (k, r) =>
         (match skipWs r with
          | ':' :: r' =>
            (match parseVal fuel r' with
             | some (v, r'') => some ((k, v), r'')
             | none => none)
          | _ => none)
       | none => none)
    | _ => none

/-- Object continuation: after at least one pair, consume a comma and a
further pair, or the closing brace. -/
def parseObjTail : ℕ → List (String × Json) → List Char →
    Option (Json × List Char)
  | 0, _, _ => none
  | fuel + 1, acc, cs =>
    match skipWs cs with
    | '\x7d' :: r => some (Json.obj acc.reverse, r)
    | ',' :: r =>
      (match parseObjPair fuel r with
       | some (kv, r') => parseObjTail fuel (kv :: acc) r'
       | none => none)
    | _ => none

end

/-- Model of Python json.loads: parse one JSON value and require that only
whitespace remains; any parse error becomes none (the embedded code always
guards loads with try/except JSONDecodeError).  The nonstandard
NaN/Infinity extension of the Python decoder is not modelled. -/
def json_loads (s : String) : Option Json :=
  match parseVal (2 * s.toList.length + 8) s.toList with
  | some (j, rest) => if skipWs rest = [] then some j else none
  | none => none

/-- Last-wins key lookup on raw object pairs, matching how Python dict
construction treats duplicate keys in json.loads output. -/
def lookupLast : List (String × Json) → String → Option Json
  | [], _ => none
  | (k, v) :: rest, field =>
    match lookupLast rest field with
    | some r => some r
    | none => if k == field then some v else none

/-- Subscript access d[field]; none models the KeyError / TypeError that
the embedded code always catches with a broad except. -/
def getField (j : Json) (field : String) : Option Json :=
  match j with
  | Json.obj kvs => lookupLast kvs field
  | _ => none

def isInfixAux (pat : List Char) : List Char → Bool
  | [] => pat.isEmpty
  | c :: rest => pat.isPrefixOf (c :: rest) || isInfixAux pat rest

/-- Substring test: pat appears somewhere in hay (Python "pat in hay" for
strings). -/
def str_contains (hay pat : String) : Bool :=
  isInfixAux pat.toList hay.toList

def isStrEqJ (x : Json) (k : String) : Bool :=
  match x with
  | Json.str s => s == k
  | _ => false

/-- Python "field in value" as used on json.loads results: key membership
for dicts, element equality for lists, substring for strings; false
elsewhere (where Python would raise TypeError, which the callers catch,
yielding the same observable outcome). -/
def pyContains (field : String) (j : Json) : Bool :=
  match j with
  | Json.obj kvs => kvs.any (fun kv => kv.1 == field)
  | Json.arr xs => xs.any (fun x => isStrEqJ x field)
  | Json.str s => str_contains s field
  | _ => false

/-- Python truthiness of a json.loads value. -/
def jsonTruthy : Json → Bool
  | Json.null => false
  | Json.bool b => b
  | Json.num q => decide (q ≠ 0)
  | Json.str s => s ≠ ""
  | Json.arr xs => !xs.isEmpty
  | Json.obj kvs => !kvs.isEmpty

/-- Python str whitespace (ASCII fragment, the cases exercised here). -/
def pySpace (c : Char) : Bool :=
  c = ' ' || c = '\t' || c = '\n' || c = '\r' || c = '\x0b' || c = '\x0c'

/-- Python str.strip() with no arguments. -/
def pyStrip (s : String) : String :=
  String.mk (((s.toList.dropWhile pySpace).reverse.dropWhile pySpace).reverse)

/-- Python str.lower() (ASCII case mapping, the cases exercised here). -/
def strLower (s : String) : String :=
  String.mk (s.toList.map Char.toLower)

def splitNlAux : List Char → List Char → List (List Char)
  | [], acc => [acc.reverse]
  | '\n' :: rest, acc => acc.reverse :: splitNlAux rest []
  | c :: rest, acc => splitNlAux rest (c :: acc)

/-- Number of elements of Python text.split("\n"): one more than the
number of newline characters; 1 for the empty string. -/
def countLines (s : String) : ℕ :=
  (splitNlAux s.toList []).length

/-- Suffix of s after the first occurrence of pat (empty when pat does not
occur; callers only use it after checking occurrence). -/
def dropThroughFirst (pat : List Char) : List Char → List Char
  | [] => []
  | c :: rest =>
    if pat.isPrefixOf (c :: rest) then (c :: rest).drop pat.length
    else dropThroughFirst pat rest

/-- Prefix of s before the first occurrence of pat (all of s when pat does
not occur), matching s.split(pat)[0]. -/
def takeBeforeFirst (pat : List Char) : List Char → List Char
  | [] => []
  | c :: rest =>
    if pat.isPrefixOf (c :: rest) then []
    else c :: takeBeforeFirst pat rest

/-- Substring response_text[start:end] where start is the index of the
first opening brace and end is one past the index of the last closing
brace; none exactly when the source's guard start >= 0 and end > start
fails. -/
def braceSlice (s : String) : Option String :=
  let cs := s.toList
  match cs.findIdx? (fun c => c = '\x7b') with
  | none => none
  | some i =>
    match cs.reverse.findIdx? (fun c => c = '\x7d') with
    | none => none
    | some rj =>
      let j := cs.length - 1 - rj
      if i ≤ j then some (String.mk ((cs.drop i).take (j + 1 - i))) else none

/-- PARSE stage of TranscriptStructurer.structure_transcript
(structured_data.py lines 112-125): strip a markdown code fence if one is
present, then attempt a single json.loads; a JSONDecodeError yields none.
There is no further fallback and no key validation. -/
def structure_transcript_parse (response_text : String) : Option Json :=
  let t :=
    if str_contains response_text "```json" then
      String.mk (takeBeforeFirst "```".toList
        (dropThroughFirst "```json".toList response_text.toList)) |> pyStrip
    else if str_contains response_text "```" then
      String.mk (takeBeforeFirst "```".toList
        (dropThroughFirst "```".toList response_text.toList)) |> pyStrip
    else response_text
  json_loads t

/-- TranscriptStructurer.structure_transcript: the generative call either
raises (modelled as Except.error, caught by the outer except, yielding
none) or produces the response text handed to the parse stage. -/
def structure_transcript (outcome : Except String String) : Option Json :=
  match outcome with
  | Except.error _ => none
  | Except.ok text => structure_transcript_parse text

/-- TranscriptStructurer.process_transcript: load, structure, save, return.
First component is the value returned to the caller; second records
whether save_structured_data actually persisted the record (its boolean
result is discarded by the source).  loadOutcome models load_transcript
(none for an I/O error; empty string loads are falsy and rejected),
structF models structure_transcript on the loaded text, saveOk models the
outcome of save_structured_data. -/
def process_transcript (loadOutcome : Option String)
    (structF : String → Option Json) (saveOk : Bool) : Option Json × Bool :=
  match loadOutcome with
  | none => (none, false)
  | some t =>
    if t = "" then (none, false)
    else
      match structF t with
      | none => (none, false)
      | some j => if jsonTruthy j then (some j, saveOk) else (none, false)

/-- TranscriptVectorStore.generate_embedding: the Bedrock call plus
response decoding either yields an embedding vector or raises, and any
exception is caught and mapped to the empty vector; the function never
raises. -/
def generate_embedding (outcome : Except String (List ℚ)) : List ℚ :=
  match outcome with
  | Except.ok v => v
  | Except.error _ => []

/-- Metadata attached to one indexed unit (rag.py metadata dicts). -/
structure UnitMeta where
  video_id : String
  type : String
  question_number : Option ℕ
  source : String
deriving DecidableEq

/-- One (document, metadata, id, embedding) tuple as produced by
load_structured_transcripts and consumed by add_to_vector_store. -/
structure UnitRow where
  doc : String
  meta : UnitMeta
  uid : String
  emb : List ℚ
deriving DecidableEq

/-- One question/answer pair of a structured transcript file. -/
structure QaPair where
  question : Option String
  answer : Option String

/-- Content of one structured transcript JSON file, at the level of the
TranscriptRecord schema the ingestion code reads; the video_id is the file
stem.  A missing key is none; Python truthiness of a present value is
being nonempty. -/
structure TranscriptRecord where
  video_id : String
  introduction : Option String
  conversation : Option String
  qa_pairs : List QaPair

/-- Question and answer units for the qa_pairs of one record, starting at
ordinal i (the source uses enumerate(..., 1), so the top call passes 1). -/
def qa_units (embed : String → List ℚ) (vid : String) :
    ℕ → List QaPair → List UnitRow
  | _, [] => []
  | i, qa :: rest =>
    (match qa.question with
     | some q =>
       if q ≠ "" then
         [⟨q, ⟨vid, "question", some i, vid ++ ".json"⟩,
           vid ++ "_question_" ++ toString i, embed q⟩]
       else []
     | none => []) ++
    (match qa.answer with
     | some a =>
       if a ≠ "" then
         [⟨a, ⟨vid, "answer", some i, vid ++ ".json"⟩,
           vid ++ "_answer_" ++ toString i, embed a⟩]
       else []
     | none => []) ++
    qa_units embed vid (i + 1) rest

/-- Units contributed by one structured transcript file: optional
introduction unit, optional conversation unit, then question/answer units
with 1-indexed ordinals (rag.py lines 104-168). -/
def units_of_record (embed : String → List ℚ) (r : TranscriptRecord) :
    List UnitRow :=
  (match r.introduction with
   | some t =>
     if t ≠ "" then
       [⟨t, ⟨r.video_id, "introduction", none, r.video_id ++ ".json"⟩,
         r.video_id ++ "_introduction", embed t⟩]
     else []
   | none => []) ++
  (match r.conversation with
   | some t =>
     if t ≠ "" then
       [⟨t, ⟨r.video_id, "conversation", none, r.video_id ++ ".json"⟩,
         r.video_id ++ "_conversation", embed t⟩]
     else []
   | none => []) ++
  qa_units embed r.video_id 1 r.qa_pairs

/-- TranscriptVectorStore.load_structured_transcripts over the
successfully parsed structured files, with embed the outcome of
generate_embedding per text.  The source returns four parallel lists
(documents, metadatas, ids, embeddings); they are the four projections of
this row list. -/
def load_structured_transcripts (files : List TranscriptRecord)
    (embed : String → List ℚ) : List UnitRow :=
  files.flatMap (units_of_record embed)

/-- Python zip over the four parallel argument lists of
add_to_vector_store (truncating at the shortest, as zip does). -/
def zip4 : List String → List UnitMeta → List String → List (List ℚ) →
    List UnitRow
  | d :: ds, m :: ms, k :: ks, e :: es => ⟨d, m, k, e⟩ :: zip4 ds ms ks es
  | _, _, _, _ => []

/-- Valid units kept by add_to_vector_store: those whose embedding is a
nonempty list (the source's `if embedding and len(embedding) > 0`). -/
def validUnits (ds : List String) (ms : List UnitMeta) (ks : List String)
    (es : List (List ℚ)) : List UnitRow :=
  (zip4 ds ms ks es).filter (fun u => !u.emb.isEmpty)

/-- The persisted collection, as a list of stored rows.
Modelled from the spec: the ChromaDB collection itself is an external
store engine (not part of src/); the spec assigns it upsert semantics —
"Upsert: insert-or-overwrite by identifier" — which this list realises. -/
abbrev Store : Type := List UnitRow

/-- Modelled from the spec: storing one unit overwrites any entry with the
same id, otherwise appends (overwrite-by-id / upsert semantics of the
external store engine). -/
def upsertUnit (s : Store) (u : UnitRow) : Store :=
  if (List.any s fun e => e.uid = u.uid) then
    List.map (fun e => if e.uid = u.uid then u else e) s
  else List.append s [u]

/-- Modelled from the spec: bulk storage of a unit batch, one upsert per
unit in order. -/
def upsertAll (s : Store) (l : List UnitRow) : Store :=
  l.foldl upsertUnit s

/-- Units actually persisted by one collection.add call: the external add
is all-or-nothing, so everything handed to it when it succeeds (addOk) and
nothing when it raises. -/
def unitsStored (valid : List UnitRow) (addOk : Bool) : List UnitRow :=
  if addOk then valid else []

/-- TranscriptVectorStore.add_to_vector_store: filter out rows with empty
embeddings; report failure if nothing valid remains; otherwise hand the
valid rows to collection.add, whose outcome addOk is external (an
exception is caught and mapped to False).  Returns the reported boolean
and the resulting store contents. -/
def add_to_vector_store (ds : List String) (ms : List UnitMeta)
    (ks : List String) (es : List (List ℚ)) (addOk : Bool) (s : Store) :
    Bool × Store :=
  let valid := validUnits ds ms ks es
  if valid.isEmpty then (false, s)
  else if addOk then (true, upsertAll s valid)
  else (false, s)

/-- Shape of a ChromaDB query result as the source reads it. -/
structure QueryResult where
  ids : List (List String)
  documents : List (List String)
  metadatas : List (List UnitMeta)
  distances : List (List ℚ)

/-- TranscriptVectorStore.query_similar: on success the external query
result is returned as-is; any exception is caught and mapped to the
flat-empty sentinel dict. -/
def query_similar (outcome : Except String QueryResult) : QueryResult :=
  match outcome with
  | Except.ok r => r
  | Except.error _ => ⟨[], [], [], []⟩

/-- TranscriptVectorStore.process_all_transcripts: load all structured
transcripts, then add them if any document was produced, else report
failure. -/
def process_all_transcripts (files : List TranscriptRecord)
    (embed : String → List ℚ) (addOk : Bool) (s : Store) : Bool × Store :=
  let rows := load_structured_transcripts files embed
  if !rows.isEmpty then
    add_to_vector_store (rows.map UnitRow.doc) (rows.map UnitRow.meta)
      (rows.map UnitRow.uid) (rows.map UnitRow.emb) addOk s
  else (false, s)

/-- Required fields validated on the fallback path of
LanguageLearningAssistant.generate_question. -/
def required_fields : List String :=
  ["conversation", "question_spanish", "question_english", "answers"]

/-- PARSE stage of LanguageLearningAssistant.generate_question (lines
182-204): first a direct json.loads of the whole response — returned
as-is on success; only if that raises does the code slice from the first
opening brace to the last closing brace, reparse, and check the required
fields, returning none on any failure. -/
def generate_question_parse (response_text : String) : Option Json :=
  match json_loads response_text with
  | some j => some j
  | none =>
    match braceSlice response_text with
    | some sub =>
      match json_loads sub with
      | some j =>
        if required_fields.all (fun f => pyContains f j) then some j else none
      | none => none
    | none => none

/-- LanguageLearningAssistant.generate_question: the Bedrock call and
response decoding either raise (outer except, none) or produce the
response text handed to the parse stage. -/
def generate_question (outcome : Except String String) : Option Json :=
  match outcome with
  | Except.error _ => none
  | Except.ok text => generate_question_parse text

/-- Core of LanguageLearningAssistant.retrieve_similar_context over the
first row of retrieved documents: skip any context of fewer than 3 lines,
strip the survivors, drop empties, and if anything remains return the
single combined labelled block, else the empty list. -/
def retrieve_core (docs : List String) : List String :=
  let processed :=
    ((docs.filter (fun c => decide (3 ≤ countLines c))).map pyStrip).filter
      (fun c => c ≠ "")
  if !processed.isEmpty then
    ["Conversation:\n" ++ String.intercalate "\n" processed]
  else []

/-- LanguageLearningAssistant.retrieve_similar_context: reads
results['documents'][0] from the query result; when the documents list is
empty (the query_similar error sentinel) the subscript raises and the
outer except returns []. -/
def retrieve_similar_context (qres : QueryResult) : List String :=
  match qres.documents with
  | [] => []
  | row :: _ => retrieve_core row

/-- Result dictionary built by generate_learning_exercise. -/
structure ExerciseResult where
  context : Json
  question_spanish : Json
  question_english : Json
  answers : Json

/-- Number of entries of the answers value when it is a JSON array. -/
def answersCount (j : Json) : ℕ :=
  match j with
  | Json.arr xs => xs.length
  | _ => 0

/-- Number of answers entries whose is_correct field is true. -/
def correctCount (j : Json) : ℕ :=
  match j with
  | Json.arr xs =>
    (xs.filter fun x =>
      match getField x "is_correct" with
      | some (Json.bool true) => true
      | _ => false).length
  | _ => 0

/-- Assembly step of generate_learning_exercise (lines 235-243): if the
parsed response is truthy and contains "conversation", build the result
dict from the four subscript accesses; a missing key there raises
KeyError, caught by the outer except (none).  No validation of the
answers list is performed. -/
def assemble_core (j : Json) : Option ExerciseResult :=
  if jsonTruthy j && pyContains "conversation" j then
    match getField j "conversation", getField j "question_spanish",
      getField j "question_english", getField j "answers" with
    | some c, some qs, some qe, some ans => some ⟨c, qs, qe, ans⟩
    | _, _, _, _ => none
  else none

def assemble_exercise (response : Option Json) : Option ExerciseResult :=
  match response with
  | none => none
  | some j => assemble_core j

/-- Template selection of generate_learning_exercise (lines 217-232): the
documents typed "conversation", or — when there are none — any documents
capped at 5.  The collection is modelled as the list of stored (document,
type) pairs in insertion order. -/
def select_templates (collection : List (String × String)) : List String :=
  let conv := (collection.filter (fun u => u.2 = "conversation")).map Prod.fst
  if conv.isEmpty then (collection.map Prod.fst).take 5 else conv

/-- LanguageLearningAssistant.generate_learning_exercise: select a
template document, call generate_question on it (llm maps the template to
the model's raw response text), and assemble the result; none when the
store yields no documents or parsing/assembly fails. -/
def generate_learning_exercise (collection : List (String × String))
    (llm : String → String) : Option ExerciseResult :=
  match select_templates collection with
  | [] => none
  | template :: _ =>
    assemble_exercise (generate_question_parse (llm template))

/-- Association update used while building difflib's b2j table: append
index j to the entry of character c (insertion order preserved, indices
ascending). -/
def addIdx (m : List (Char × List ℕ)) (c : Char) (j : ℕ) :
    List (Char × List ℕ) :=
  match m with
  | [] => [(c, [j])]
  | (c', js) :: rest =>
    if c' = c then (c', js ++ [j]) :: rest else (c', js) :: addIdx rest c j

/-- Raw b2j table of difflib.SequenceMatcher: each character of b mapped
to its ascending list of indices. -/
def b2jRaw (b : List Char) : List (Char × List ℕ) :=
  b.enum.foldl (fun m p => addIdx m p.2 p.1) []

/-- Full b2j table with autojunk (SequenceMatcher(None, a, b) defaults):
for b of length at least 200, characters occurring more than
len(b)/100 + 1 times are dropped from the table; the junk set proper is
empty since no isjunk function is supplied. -/
def chainB (b : List Char) : List (Char × List ℕ) :=
  let raw := b2jRaw b
  let n := b.length
  if 200 ≤ n then
    raw.filter (fun e => decide (e.2.length ≤ n / 100 + 1))
  else raw

def assocGet (m : List (Char × List ℕ)) (c : Char) : List ℕ :=
  match m with
  | [] => []
  | (c', js) :: rest => if c' = c then js else assocGet rest c

/-- Inner loop of find_longest_match over the candidate j positions of one
row i: skip j below blo, stop at the first j at or past bhi, otherwise
extend the diagonal run count and track the best block seen. -/
def flmInner (i blo bhi : ℕ) : List ℕ → (ℕ → ℕ) → (ℕ → ℕ) →
    (ℕ × ℕ × ℕ) → ((ℕ → ℕ) × (ℕ × ℕ × ℕ))
  | [], _, newj2len, best => (newj2len, best)
  | j :: rest, j2len, newj2len, best =>
    if j < blo then flmInner i blo bhi rest j2len newj2len best
    else if bhi ≤ j then (newj2len, best)
    else
      let k := (if j = 0 then 0 else j2len (j - 1)) + 1
      let newj2len' := fun x => if x = j then k else newj2len x
      let best' := if best.2.2 < k then (i + 1 - k, j + 1 - k, k) else best
      flmInner i blo bhi rest j2len newj2len' best'

/-- Outer loop of find_longest_match over the rows i of a. -/
def flmOuter (a : List Char) (tbl : List (Char × List ℕ)) (blo bhi : ℕ) :
    List ℕ → (ℕ → ℕ) → (ℕ × ℕ × ℕ) → (ℕ × ℕ × ℕ)
  | [], _, best => best
  | i :: rest, j2len, best =>
    let p := flmInner i blo bhi (assocGet tbl (a.getD i ' ')) j2len
      (fun _ => 0) best
    flmOuter a tbl blo bhi rest p.1 p.2

/-- Leftward extension loop of find_longest_match (the junk variant never
fires since the junk set is empty with no isjunk function). -/
def extendLeft (a b : List Char) (alo blo : ℕ) :
    ℕ → (ℕ × ℕ × ℕ) → (ℕ × ℕ × ℕ)
  | 0, best => best
  | fuel + 1, (besti, bestj, bestsize) =>
    if alo < besti ∧ blo < bestj ∧
        a.getD (besti - 1) ' ' = b.getD (bestj - 1) ' ' then
      extendLeft a b alo blo fuel (besti - 1, bestj - 1, bestsize + 1)
    else (besti, bestj, bestsize)

/-- Rightward extension loop of find_longest_match. -/
def extendRight (a b : List Char) (ahi bhi : ℕ) :
    ℕ → (ℕ × ℕ × ℕ) → (ℕ × ℕ × ℕ)
  | 0, best => best
  | fuel + 1, (besti, bestj, bestsize) =>
    if besti + bestsize < ahi ∧ bestj + bestsize < bhi ∧
        a.getD (besti + bestsize) ' ' = b.getD (bestj + bestsize) ' ' then
      extendRight a b ahi bhi fuel (besti, bestj, bestsize + 1)
    else (besti, bestj, bestsize)

/-- difflib SequenceMatcher.find_longest_match on a[alo:ahi] and
b[blo:bhi] with the autojunk b2j table. -/
def find_longest_match (a b : List Char) (tbl : List (Char × List ℕ))
    (alo ahi blo bhi : ℕ) : ℕ × ℕ × ℕ :=
  let fuel := a.length + b.length + 1
  let best := flmOuter a tbl blo bhi (List.range' alo (ahi - alo))
    (fun _ => 0) (alo, blo, 0)
  extendRight a b ahi bhi fuel (extendLeft a b alo blo fuel best)

/-- Total size of the matching blocks (the matches count entering
SequenceMatcher.ratio): recursively take the longest match and recurse on
the pieces to its left and right.  The fuel bounds the recursion depth;
the top-level call supplies more than the combined length, which the
splitting can never exhaust. -/
def matchTotal (a b : List Char) (tbl : List (Char × List ℕ)) :
    ℕ → ℕ → ℕ → ℕ → ℕ → ℕ
  | 0, _, _, _, _ => 0
  | fuel + 1, alo, ahi, blo, bhi =>
    let r := find_longest_match a b tbl alo ahi blo bhi
    let i := r.1
    let j := r.2.1
    let k := r.2.2
    if k = 0 then 0
    else
      matchTotal a b tbl fuel alo i blo j + k +
        matchTotal a b tbl fuel (i + k) ahi (j + k) bhi

/-- difflib.SequenceMatcher(None, sa, sb).ratio(): twice the matches over
the total length, 1.0 for two empty sequences.  The float arithmetic of
the source is modelled exactly over the rationals (the values 2*M/T and
the 0.8 literal the caller compares against round to doubles without
crossing the comparison). -/
def smScore (sa sb : String) : ℚ :=
  let a := sa.toList
  let b := sb.toList
  let m := matchTotal a b (chainB b) (a.length + b.length + 1)
    0 a.length 0 b.length
  if a.length + b.length = 0 then 1
  else 2 * (m : ℚ) / ((a.length : ℚ) + (b.length : ℚ))

/-- Answer check of render_interactive_stage (frontend/main.py lines
346-366): none models the "enter an answer first" branch for a
whitespace-only answer; otherwise the user answer is judged correct when
the SequenceMatcher ratio of the lowercased, stripped strings strictly
exceeds 0.8. -/
def check_answer (user_answer correct_answer : String) : Option Bool :=
  if pyStrip user_answer ≠ "" then
    some (decide ((4 : ℚ) / 5 <
      smScore (pyStrip (strLower user_answer))
        (pyStrip (strLower correct_answer))))
  else none

/-- Top-level keys of the structured transcript schema (the record fields
named by the specification). -/
def required_top_keys : List String := ["introduction", "conversation", "qa_pairs"]

/-- Parsing policy exactly as claim C5 words it (for comparison with the
source's structure_transcript_parse): direct parse of the full response;
on failure a parse of the substring between the first opening brace and
the last closing brace; failure — no record — if both parses fail or the
parsed object is missing required top-level keys. -/
def structure_parse_claimed (response_text : String) : Option Json :=
  match json_loads response_text with
  | some j =>
    if required_top_keys.all (fun k => pyContains k j) then some j else none
  | none =>
    match braceSlice response_text with
    | some sub =>
      match json_loads sub with
      | some j =>
        if required_top_keys.all (fun k => pyContains k j) then some j else none
      | none => none
    | none => none

/-- Identifier scheme for question/answer units as claim C4 states it:
video_id_question_n / video_id_answer_n with 1-indexed ordinals, one per
present nonempty field. -/
def qa_ids_spec (vid : String) : ℕ → List QaPair → List String
  | _, [] => []
  | i, qa :: rest =>
    (match qa.question with
     | some q => if q ≠ "" then [vid ++ "_question_" ++ toString i] else []
     | none => []) ++
    (match qa.answer with
     | some a => if a ≠ "" then [vid ++ "_answer_" ++ toString i] else []
     | none => []) ++
    qa_ids_spec vid (i + 1) rest

/-- Deterministic unit ids claim C4 names for one record:
video_id_introduction, video_id_conversation, then the 1-indexed
question/answer ids. -/
def unit_ids_spec (r : TranscriptRecord) : List String :=
  (match r.introduction with
   | some t => if t ≠ "" then [r.video_id ++ "_introduction"] else []
   | none => []) ++
  (match r.conversation with
   | some t => if t ≠ "" then [r.video_id ++ "_conversation"] else []
   | none => []) ++
  qa_ids_spec r.video_id 1 r.qa_pairs

lemma zip4_proj (rows : List UnitRow) :
    zip4 (rows.map UnitRow.doc) (rows.map UnitRow.meta)
      (rows.map UnitRow.uid) (rows.map UnitRow.emb) = rows := by
  induction rows with
  | nil => rfl
  | cons r rest ih => simp [zip4, ih]

/-- C8: generate_embedding never raises; on any transport or service error
it returns the empty vector, and on success it returns the service's
embedding vector unchanged. -/
theorem c8_generate_embedding_fail_soft :
    (∀ v : List ℚ, generate_embedding (Except.ok v) = v) ∧
    (∀ msg : String, generate_embedding (Except.error msg) = []) :=
  ⟨fun _ => rfl, fun _ => rfl⟩

/-- C9: when loading and structuring succeed, process_transcript returns
the structured record whatever the outcome of the persistence step: the
first (returned) component is independent of saveOk, so the caller cannot
tell from the result whether the record was saved. -/
theorem c9_process_transcript_save_independent :
    ∀ (l : Option String) (f : String → Option Json) (s₁ s₂ : Bool)
      (t : String) (j : Json),
      l = some t → t ≠ "" → f t = some j → jsonTruthy j = true →
      (process_transcript l f s₁).1 = (process_transcript l f s₂).1 ∧
      (process_transcript l f s₁).1 = some j := by
  intro l f s₁ s₂ t j hl ht hf hj
  subst hl
  simp [process_transcript, ht, hf, hj]

/-- Witness for C9 at a concrete transcript, structurer outcome and a
failing save. -/
theorem c9_witness :
    ((some "t" : Option String) = some "t" ∧ "t" ≠ "" ∧
      (fun _ : String => some (Json.obj [("introduction", Json.str "Hola")])) "t"
        = some (Json.obj [("introduction", Json.str "Hola")]) ∧
      jsonTruthy (Json.obj [("introduction", Json.str "Hola")]) = true) ∧
    ((process_transcript (some "t")
        (fun _ => some (Json.obj [("introduction", Json.str "Hola")])) false).1 =
      (process_transcript (some "t")
        (fun _ => some (Json.obj [("introduction", Json.str "Hola")])) true).1 ∧
     (process_transcript (some "t")
        (fun _ => some (Json.obj [("introduction", Json.str "Hola")])) false).1 =
      some (Json.obj [("introduction", Json.str "Hola")])) :=
  ⟨⟨rfl, by decide, rfl, rfl⟩,
    c9_process_transcript_save_independent (some "t") _ false true "t" _
      rfl (by decide) rfl rfl⟩

/-- C7 counterexample: a storage-layer error during the bulk add (the
external collection.add raising, addOk = false, on a batch with a valid
embedded unit) produces exactly the same caller-visible result, False, as
the benign "no valid units to store" outcome (an all-invalid batch with a
successful store) — the error is not surfaced as a distinguishable typed
failure. -/
theorem c7_counterexample :
    (add_to_vector_store ["doc"] [⟨"v", "conversation", none, "v.json"⟩]
        ["v_conversation"] [[1]] false ([] : Store)).1 = false ∧
    (add_to_vector_store ["doc"] [⟨"v", "conversation", none, "v.json"⟩]
        ["v_conversation"] [[]] true ([] : Store)).1 = false ∧
    (add_to_vector_store ["doc"] [⟨"v", "conversation", none, "v.json"⟩]
        ["v_conversation"] [[1]] false ([] : Store)).1 =
      (add_to_vector_store ["doc"] [⟨"v", "conversation", none, "v.json"⟩]
        ["v_conversation"] [[]] true ([] : Store)).1 :=
  ⟨rfl, rfl, rfl⟩

/-- C7 amended: storage-layer errors are caught, never propagated, and
mapped to sentinel values — False for the bulk add (the same value the
no-valid-units outcome produces, leaving the store untouched) and the
flat-empty result dict for the similarity query — rather than to a
distinguishable typed StoreFailure. -/
theorem c7_amended_store_errors_sentinel :
    ∀ (ds : List String) (ms : List UnitMeta) (ks : List String)
      (es : List (List ℚ)) (s : Store) (e : String),
      add_to_vector_store ds ms ks es false s = (false, s) ∧
      query_similar (Except.error e) = ⟨[], [], [], []⟩ := by
  intro ds ms ks es s e
  constructor
  · by_cases h : (validUnits ds ms ks es).isEmpty <;>
      simp [add_to_vector_store, h]
  · rfl

/-- C3: the bulk add reports true exactly when at least one unit was
actually stored (the valid remainder of the batch handed to a successful
all-or-nothing collection.add), units with empty embeddings having been
filtered out rather than raising; and process_all_transcripts reports
overall success exactly when at least one unit of the whole batch was
stored. -/
theorem c3_success_iff_stored :
    ∀ (ds : List String) (ms : List UnitMeta) (ks : List String)
      (es : List (List ℚ)) (addOk : Bool) (s : Store)
      (files : List TranscriptRecord) (embed : String → List ℚ),
      ((add_to_vector_store ds ms ks es addOk s).1 = true ↔
        unitsStored (validUnits ds ms ks es) addOk ≠ []) ∧
      ((process_all_transcripts files embed addOk s).1 = true ↔
        unitsStored ((load_structured_transcripts files embed).filter
          (fun u => !u.emb.isEmpty)) addOk ≠ []) := by
  intro ds ms ks es addOk s files embed
  have key : ∀ (ds' : List String) (ms' : List UnitMeta) (ks' : List String)
      (es' : List (List ℚ)),
      ((add_to_vector_store ds' ms' ks' es' addOk s).1 = true ↔
        unitsStored (validUnits ds' ms' ks' es') addOk ≠ []) := by
    intro ds' ms' ks' es'
    by_cases hv : (validUnits ds' ms' ks' es').isEmpty <;>
      cases addOk <;>
        simp_all [add_to_vector_store, unitsStored, List.isEmpty_iff]
  refine ⟨key ds ms ks es, ?_⟩
  by_cases hr : (load_structured_transcripts files embed).isEmpty
  · rw [List.isEmpty_iff] at hr
    simp [process_all_transcripts, hr, unitsStored, validUnits, zip4]
  · have hr' : (!(load_structured_transcripts files embed).isEmpty) = true := by
      simp_all
    simp only [process_all_transcripts, hr', if_true]
    have := key (List.map UnitRow.doc (load_structured_transcripts files embed))
      (List.map UnitRow.meta (load_structured_transcripts files embed))
      (List.map UnitRow.uid (load_structured_transcripts files embed))
      (List.map UnitRow.emb (load_structured_transcripts files embed))
    rwa [validUnits, zip4_proj] at this

lemma isPrefixOf_append_left (p q cs : List Char) :
    (p ++ q).isPrefixOf cs = true → p.isPrefixOf cs = true := by
  induction p generalizing cs with
  | nil => intro _; simp [List.isPrefixOf]
  | cons a as ih =>
    intro h
    cases cs with
    | nil => simp [List.isPrefixOf] at h
    | cons c cs' =>
      simp only [List.cons_append, List.isPrefixOf, Bool.and_eq_true,
        beq_iff_eq] at h ⊢
      exact ⟨h.1, ih cs' h.2⟩

lemma isInfixAux_mono (p q : List Char)
    (hpq : ∀ cs', q.isPrefixOf cs' = true → p.isPrefixOf cs' = true) :
    ∀ cs, isInfixAux q cs = true → isInfixAux p cs = true := by
  intro cs
  induction cs with
  | nil =>
    intro h
    simp only [isInfixAux, List.isEmpty_iff] at h ⊢
    subst h
    have := hpq [] (by simp [List.isPrefixOf])
    cases p with
    | nil => rfl
    | cons a as => simp [List.isPrefixOf] at this
  | cons c rest ih =>
    intro h
    simp only [isInfixAux, Bool.or_eq_true] at h ⊢
    rcases h with h | h
    · exact Or.inl (hpq _ h)
    · exact Or.inr (ih h)

lemma str_contains_json_fence (s : String) :
    str_contains s "```" = false → str_contains s "```json" = false := by
  intro h
  by_contra h2
  rw [Bool.not_eq_false] at h2
  have : str_contains s "```" = true := by
    unfold str_contains at h2 ⊢
    refine isInfixAux_mono "```".toList "```json".toList ?_ _ h2
    intro cs' hp
    have hsplit : "```json".toList = "```".toList ++ "json".toList := rfl
    rw [hsplit] at hp
    exact isPrefixOf_append_left _ _ _ hp
  rw [this] at h
  cases h

/-- C5 counterexample: on the response text
"The JSON: [object with all three top-level keys]" the source's
structure_transcript returns no record although the claimed policy (brace
substring fallback plus key validation) recovers the object; and on the
response text consisting of an empty JSON object the source returns the
record missing every required key although the claimed policy rejects it. -/
theorem c5_counterexample :
    structure_transcript_parse
        "The JSON: \x7b\"introduction\": \"Hola\", \"conversation\": \"c\", \"qa_pairs\": []\x7d"
      = none ∧
    structure_parse_claimed
        "The JSON: \x7b\"introduction\": \"Hola\", \"conversation\": \"c\", \"qa_pairs\": []\x7d"
      = some (Json.obj [("introduction", Json.str "Hola"),
          ("conversation", Json.str "c"), ("qa_pairs", Json.arr [])]) ∧
    structure_transcript_parse "\x7b\x7d" = some (Json.obj []) ∧
    structure_parse_claimed "\x7b\x7d" = none :=
  ⟨rfl, rfl, rfl, rfl⟩

/-- C5 amended: the structurer's actual policy is markdown-fence stripping
followed by a single direct JSON parse; in particular on any response
containing no fence the result is exactly json_loads of the full response
— there is no brace-substring fallback and no required-key validation, so
whatever value that single parse yields (even an object missing every
top-level key) is returned. -/
theorem c5_amended_fence_then_single_parse :
    ∀ s : String, str_contains s "```" = false →
      structure_transcript_parse s = json_loads s := by
  intro s h
  have h2 := str_contains_json_fence s h
  simp [structure_transcript_parse, h, h2]

/-- Witness for C5 amended on a fence-free response. -/
theorem c5_amended_witness :
    str_contains "Note: \x7b\"a\": \"x\"\x7d" "```" = false ∧
    structure_transcript_parse "Note: \x7b\"a\": \"x\"\x7d" =
      json_loads "Note: \x7b\"a\": \"x\"\x7d" :=
  ⟨rfl, c5_amended_fence_then_single_parse "Note: \x7b\"a\": \"x\"\x7d" rfl⟩

/-- C1 counterexample: a generative response that is valid JSON but lacks
the answers field (and every other required field but conversation) is
accepted wholesale by generate_question's direct-parse path, so the
caller does receive a partial result. -/
theorem c1_counterexample :
    generate_question_parse "\x7b\"conversation\": \"hola\"\x7d" =
      some (Json.obj [("conversation", Json.str "hola")]) ∧
    pyContains "answers" (Json.obj [("conversation", Json.str "hola")]) = false :=
  ⟨rfl, rfl⟩

/-- C1 amended: required-field validation guards only the brace-substring
fallback path of generate_question's PARSE stage; any accepted result
either came verbatim from the direct json.loads of the full response
(with no field validation at all) or passed the all-required-fields
check. -/
theorem c1_amended_validation_only_on_fallback :
    ∀ (s : String) (j : Json),
      generate_question_parse s = some j →
      json_loads s = some j ∨
        required_fields.all (fun f => pyContains f j) = true := by
  intro s j h
  unfold generate_question_parse at h
  cases hd : json_loads s with
  | some j0 =>
    simp only [hd] at h
    exact Or.inl h
  | none =>
    simp only [hd] at h
    cases hb : braceSlice s with
    | none => simp only [hb] at h; exact Option.noConfusion h
    | some sub =>
      simp only [hb] at h
      cases hj : json_loads sub with
      | none => simp only [hj] at h; exact Option.noConfusion h
      | some j2 =>
        simp only [hj] at h
        right
        by_cases hv : (required_fields.all fun f => pyContains f j2) = true
        · rw [if_pos hv] at h
          injection h with h2
          rw [← h2]
          exact hv
        · rw [if_neg hv] at h; exact Option.noConfusion h

/-- Witness for C1 amended on a fallback-path response (prose prefix, all
required fields present). -/
theorem c1_amended_witness :
    generate_question_parse
        "x \x7b\"conversation\": \"c\", \"question_spanish\": \"q\", \"question_english\": \"e\", \"answers\": [\"a\"]\x7d"
      = some (Json.obj [("conversation", Json.str "c"),
          ("question_spanish", Json.str "q"),
          ("question_english", Json.str "e"),
          ("answers", Json.arr [Json.str "a"])]) ∧
    (json_loads
        "x \x7b\"conversation\": \"c\", \"question_spanish\": \"q\", \"question_english\": \"e\", \"answers\": [\"a\"]\x7d"
      = some (Json.obj [("conversation", Json.str "c"),
          ("question_spanish", Json.str "q"),
          ("question_english", Json.str "e"),
          ("answers", Json.arr [Json.str "a"])]) ∨
      required_fields.all (fun f => pyContains f
        (Json.obj [("conversation", Json.str "c"),
          ("question_spanish", Json.str "q"),
          ("question_english", Json.str "e"),
          ("answers", Json.arr [Json.str "a"])])) = true) :=
  ⟨rfl, c1_amended_validation_only_on_fallback _ _ rfl⟩

/-- C6 counterexample: a parsed generation response carrying an empty
answers array flows through generate_learning_exercise unchecked, so the
returned ExerciseResult has 0 answers and 0 correct answers instead of
exactly 4 with exactly one correct. -/
theorem c6_counterexample :
    generate_learning_exercise [("hola", "conversation")]
        (fun _ => "\x7b\"conversation\": \"x\", \"question_spanish\": \"q\", \"question_english\": \"e\", \"answers\": []\x7d")
      = some ⟨Json.str "x", Json.str "q", Json.str "e", Json.arr []⟩ ∧
    answersCount (Json.arr []) = 0 ∧
    correctCount (Json.arr []) = 0 :=
  ⟨rfl, rfl, rfl⟩

/-- C6 amended: the generator passes the parsed response's answers field
through to the ExerciseResult verbatim — no validation of the
four-options / one-correct shape is performed, so the result satisfies it
exactly when the model's response happened to. -/
theorem c6_amended_answers_passthrough :
    ∀ (j : Json) (r : ExerciseResult),
      assemble_core j = some r →
      getField j "answers" = some r.answers := by
  intro j r h
  unfold assemble_core at h
  by_cases hc : (jsonTruthy j && pyContains "conversation" j) = true
  · rw [if_pos hc] at h
    cases h1 : getField j "conversation" with
    | none => simp only [h1] at h; exact Option.noConfusion h
    | some c =>
      cases h2 : getField j "question_spanish" with
      | none => simp only [h1, h2] at h; exact Option.noConfusion h
      | some qs =>
        cases h3 : getField j "question_english" with
        | none => simp only [h1, h2, h3] at h; exact Option.noConfusion h
        | some qe =>
          cases h4 : getField j "answers" with
          | none => simp only [h1, h2, h3, h4] at h; exact Option.noConfusion h
          | some ans =>
            simp only [h1, h2, h3, h4] at h
            injection h with h5
            rw [← h5]
  · rw [if_neg hc] at h
    exact Option.noConfusion h

/-- Witness for C6 amended at a response whose answers field is present
but not even an array. -/
theorem c6_amended_witness :
    assemble_core (Json.obj [("conversation", Json.str "x"),
        ("question_spanish", Json.str "q"), ("question_english", Json.str "e"),
        ("answers", Json.str "oops")]) =
      some ⟨Json.str "x", Json.str "q", Json.str "e", Json.str "oops"⟩ ∧
    getField (Json.obj [("conversation", Json.str "x"),
        ("question_spanish", Json.str "q"), ("question_english", Json.str "e"),
        ("answers", Json.str "oops")]) "answers" = some (Json.str "oops") :=
  ⟨rfl, c6_amended_answers_passthrough
    (Json.obj [("conversation", Json.str "x"),
        ("question_spanish", Json.str "q"), ("question_english", Json.str "e"),
        ("answers", Json.str "oops")])
    ⟨Json.str "x", Json.str "q", Json.str "e", Json.str "oops"⟩ rfl⟩

/-- C2 counterexample: with the store holding exactly one conversation
fragment of a single line (fewer than 3 lines), the claim requires the
FILTER stage to discard it and the request to fail with no result; the
generator instead uses it as the template unfiltered and returns an
exercise. -/
theorem c2_counterexample :
    countLines "hola" = 1 ∧
    generate_learning_exercise [("hola", "conversation")]
        (fun _ => "\x7b\"conversation\": \"x\", \"question_spanish\": \"q\", \"question_english\": \"e\", \"answers\": [\"a\", \"b\", \"c\", \"d\"]\x7d")
      = some ⟨Json.str "x", Json.str "q", Json.str "e",
          Json.arr [Json.str "a", Json.str "b", Json.str "c", Json.str "d"]⟩ :=
  ⟨rfl, rfl⟩

/-- C2 amended: the under-3-lines filter lives only in
retrieve_similar_context, which returns the empty list with no fallback
retrieval when nothing survives; generate_learning_exercise applies no
line filter — its fallback (any stored units, capped at 5, regardless of
type) triggers only when no conversation-typed unit exists, and with an
empty store the request fails with no result. -/
theorem c2_amended_filter_and_fallback :
    (∀ docs : List String, (∀ c ∈ docs, countLines c < 3) →
      retrieve_core docs = []) ∧
    (∀ collection : List (String × String),
      collection.filter (fun u => u.2 = "conversation") = [] →
      select_templates collection = (collection.map Prod.fst).take 5) ∧
    (∀ llm : String → String, generate_learning_exercise [] llm = none) := by
  refine ⟨?_, ?_, ?_⟩
  · intro docs h
    have hf : docs.filter (fun c => decide (3 ≤ countLines c)) = [] := by
      rw [List.filter_eq_nil_iff]
      intro a ha
      simp [Nat.not_le.mpr (h a ha)]
    simp [retrieve_core, hf]
  · intro col h
    simp [select_templates, h]
  · intro llm
    rfl

/-- Witness for C2 amended: a one-line fragment is filtered with no
fallback, a conversation-free store falls back to type-agnostic
retrieval, and the empty store fails. -/
theorem c2_amended_witness :
    ((∀ c ∈ ["hola"], countLines c < 3) ∧ retrieve_core ["hola"] = []) ∧
    (([("d", "introduction")].filter (fun u => u.2 = "conversation") = []) ∧
      select_templates [("d", "introduction")] =
        ([("d", "introduction")].map Prod.fst).take 5) ∧
    generate_learning_exercise [] (fun _ => "") = none :=
  ⟨⟨by decide, c2_amended_filter_and_fallback.1 ["hola"] (by decide)⟩,
    ⟨by decide, c2_amended_filter_and_fallback.2.1 [("d", "introduction")] (by decide)⟩,
    c2_amended_filter_and_fallback.2.2 (fun _ => "")⟩

/-- C10: a non-whitespace user answer is judged correct exactly when the
SequenceMatcher similarity ratio between the lowercased, stripped user
answer and the lowercased, stripped stored correct answer strictly
exceeds 0.8. -/
theorem c10_answer_check_threshold :
    ∀ u c : String, pyStrip u ≠ "" →
      (check_answer u c = some true ↔
        (4 : ℚ) / 5 <
          smScore (pyStrip (strLower u)) (pyStrip (strLower c))) := by
  intro u c h
  simp [check_answer, h]

/-- Witness for C10 at a concrete non-empty answer. -/
theorem c10_witness :
    pyStrip "Hola " ≠ "" ∧
    (check_answer "Hola " "hola" = some true ↔
      (4 : ℚ) / 5 <
        smScore (pyStrip (strLower "Hola ")) (pyStrip (strLower "hola"))) :=
  ⟨by decide, c10_answer_check_threshold "Hola " "hola" (by decide)⟩

lemma keys_map_branch (s : Store) (u : UnitRow) :
    (List.map (fun e => if e.uid = u.uid then u else e) s).map UnitRow.uid =
      s.map UnitRow.uid := by
  induction s with
  | nil => rfl
  | cons e rest ih =>
    by_cases h : e.uid = u.uid <;> simp [h, ih]

lemma mem_keys_upsertUnit (s : Store) (u : UnitRow) (k : String)
    (h : k ∈ s.map UnitRow.uid) : k ∈ (upsertUnit s u).map UnitRow.uid := by
  unfold upsertUnit
  split
  · rwa [keys_map_branch]
  · simp only [List.append_eq, List.map_append, List.mem_append]
    exact Or.inl h

lemma uid_mem_upsertUnit (s : Store) (u : UnitRow) :
    u.uid ∈ (upsertUnit s u).map UnitRow.uid := by
  unfold upsertUnit
  split
  · rename_i h
    rw [keys_map_branch]
    rcases List.any_eq_true.mp h with ⟨e, he, hu⟩
    rw [decide_eq_true_eq] at hu
    exact hu ▸ List.mem_map_of_mem UnitRow.uid he
  · simp

lemma keys_upsertAll_mono (l : List UnitRow) :
    ∀ (s : Store) (k : String), k ∈ s.map UnitRow.uid →
      k ∈ (upsertAll s l).map UnitRow.uid := by
  induction l with
  | nil => intro s k h; exact h
  | cons v l ih =>
    intro s k h
    exact ih (upsertUnit s v) k (mem_keys_upsertUnit s v k h)

/-- Every entry of s stored under key k is exactly u. -/
def AllEqAt (k : String) (u : UnitRow) (s : Store) : Prop :=
  ∀ e ∈ s, e.uid = k → e = u

lemma allEqAt_upsertUnit_self (s : Store) (u : UnitRow) :
    AllEqAt u.uid u (upsertUnit s u) := by
  unfold upsertUnit
  split
  · intro x hx hxk
    rcases List.mem_map.mp hx with ⟨e, _, hfe⟩
    by_cases h : e.uid = u.uid
    · rw [← hfe, if_pos h]
    · exfalso
      apply h
      rw [← hfe, if_neg h] at hxk
      exact hxk
  · rename_i hany
    have hf : (List.any s fun e => decide (e.uid = u.uid)) = false := by
      simpa using hany
    intro x hx hxk
    rcases List.mem_append.mp hx with hxs | hxu
    · exfalso
      have htr : (List.any s fun e => decide (e.uid = u.uid)) = true :=
        List.any_eq_true.mpr ⟨x, hxs, by simp [hxk]⟩
      rw [htr] at hf
      exact Bool.noConfusion hf
    · simpa using hxu

lemma allEqAt_upsertUnit (s : Store) (u v : UnitRow) (k : String)
    (hall : AllEqAt k u s) (hv : v.uid ≠ k) :
    AllEqAt k u (upsertUnit s v) := by
  unfold upsertUnit
  split
  · intro x hx hxk
    rcases List.mem_map.mp hx with ⟨e, he, hfe⟩
    by_cases h : e.uid = v.uid
    · rw [← hfe, if_pos h] at hxk ⊢
      exact absurd hxk hv
    · rw [← hfe, if_neg h] at hxk ⊢
      exact hall e he hxk
  · intro x hx hxk
    rcases List.mem_append.mp hx with hxs | hxu
    · exact hall x hxs hxk
    · simp only [List.mem_singleton] at hxu
      rw [hxu] at hxk
      exact absurd hxk hv

lemma allEqAt_upsertAll (l : List UnitRow) :
    ∀ (s : Store) (u : UnitRow) (k : String), AllEqAt k u s →
      (∀ v ∈ l, v.uid ≠ k) → AllEqAt k u (upsertAll s l) := by
  induction l with
  | nil => intro s u k h _; exact h
  | cons v l ih =>
    intro s u k h hl
    exact ih (upsertUnit s v) u k
      (allEqAt_upsertUnit s u v k h (hl v (List.mem_cons_self v l)))
      (fun w hw => hl w (List.mem_cons_of_mem v hw))

lemma upsertUnit_self_noop (s : Store) (u : UnitRow)
    (hall : AllEqAt u.uid u s) (hmem : u.uid ∈ s.map UnitRow.uid) :
    upsertUnit s u = s := by
  have hany : (List.any s fun e => decide (e.uid = u.uid)) = true := by
    rcases List.mem_map.mp hmem with ⟨e, he, hk⟩
    exact List.any_eq_true.mpr ⟨e, he, by simp [hk]⟩
  unfold upsertUnit
  rw [if_pos hany]
  have : ∀ e ∈ s, (if e.uid = u.uid then u else e) = e := by
    intro e he
    by_cases h : e.uid = u.uid
    · rw [if_pos h, hall e he h]
    · rw [if_neg h]
  rw [List.map_congr_left this]
  simp

/-- Two stores that agree entry-by-entry (same keys in the same
positions) except possibly in the payload of entries stored under key k. -/
def EqExcept (k : String) (B B' : Store) : Prop :=
  List.Forall₂ (fun e e' => e.uid = e'.uid ∧ (e.uid ≠ k → e = e')) B B'

lemma eqExcept_keys (k : String) (B B' : Store) (h : EqExcept k B B') :
    B.map UnitRow.uid = B'.map UnitRow.uid := by
  induction h with
  | nil => rfl
  | cons h₁ _ ih => simp [h₁.1, ih]

lemma eqExcept_refl_map (k : String) (f : UnitRow → UnitRow)
    (hid : ∀ e, (f e).uid = e.uid) (hne : ∀ e, e.uid ≠ k → f e = e) :
    ∀ B : Store, EqExcept k (B.map f) B := by
  intro B
  induction B with
  | nil => exact List.Forall₂.nil
  | cons e rest ih =>
    exact List.Forall₂.cons ⟨hid e, fun hek => by rw [hne e (by rwa [hid e] at hek)]⟩ ih

lemma any_uid_of_keys (B B' : Store) (k : String)
    (hkeys : B.map UnitRow.uid = B'.map UnitRow.uid) :
    (List.any B fun e => decide (e.uid = k)) =
      (List.any B' fun e => decide (e.uid = k)) := by
  have aux : ∀ C : Store, (List.any C fun e => decide (e.uid = k)) =
      (C.map UnitRow.uid).any (fun x => decide (x = k)) := by
    intro C
    induction C with
    | nil => rfl
    | cons e rest ih => simp [ih]
  rw [aux, aux, hkeys]

lemma eqExcept_all_ne (k : String) (B B' : Store) (h : EqExcept k B B')
    (hk : k ∉ B.map UnitRow.uid) : B = B' := by
  induction h with
  | nil => rfl
  | @cons a b l₁ l₂ h₁ h₂ ih =>
    simp only [List.map_cons, List.mem_cons, not_or] at hk
    rw [h₁.2 (fun hek => hk.1 hek.symm), ih hk.2]

lemma eqExcept_upsertUnit (k : String) (B B' : Store) (v : UnitRow)
    (h : EqExcept k B B') :
    EqExcept k (upsertUnit B v) (upsertUnit B' v) := by
  have hany := any_uid_of_keys B B' v.uid (eqExcept_keys k B B' h)
  unfold upsertUnit
  by_cases hb : (List.any B fun e => decide (e.uid = v.uid)) = true
  · rw [if_pos hb, if_pos (hany ▸ hb)]
    clear hany hb
    induction h with
    | nil => exact List.Forall₂.nil
    | @cons a b l₁ l₂ h₁ h₂ ih =>
      simp only [List.map_cons]
      refine List.Forall₂.cons ?_ ih
      dsimp only
      by_cases he : a.uid = v.uid
      · rw [if_pos he, if_pos (h₁.1 ▸ he)]
        exact ⟨rfl, fun _ => rfl⟩
      · rw [if_neg he, if_neg (h₁.1 ▸ he)]
        exact h₁
  · rw [if_neg hb, if_neg (hany ▸ hb)]
    exact List.rel_append h
      (List.Forall₂.cons ⟨rfl, fun _ => rfl⟩ List.Forall₂.nil)

lemma eqExcept_upsertUnit_eq (k : String) (B B' : Store) (v : UnitRow)
    (h : EqExcept k B B') (hv : v.uid = k) :
    upsertUnit B v = upsertUnit B' v := by
  have hany := any_uid_of_keys B B' v.uid (eqExcept_keys k B B' h)
  unfold upsertUnit
  by_cases hb : (List.any B fun e => decide (e.uid = v.uid)) = true
  · rw [if_pos hb, if_pos (hany ▸ hb)]
    clear hany hb
    induction h with
    | nil => rfl
    | @cons a b l₁ l₂ h₁ h₂ ih =>
      simp only [List.map_cons, List.cons.injEq]
      refine ⟨?_, ih⟩
      dsimp only
      by_cases he : a.uid = v.uid
      · rw [if_pos he, if_pos (h₁.1 ▸ he)]
      · rw [if_neg he, if_neg (h₁.1 ▸ he)]
        exact h₁.2 (fun hek => he (hv ▸ hek))
  · have hB : B = B' := by
      refine eqExcept_all_ne k B B' h ?_
      intro hk
      apply hb
      rcases List.mem_map.mp hk with ⟨e, he, hek⟩
      exact List.any_eq_true.mpr ⟨e, he, by simp [hek, hv]⟩
    rw [hB]

lemma eqExcept_replay (k : String) (l : List UnitRow) :
    ∀ (B B' : Store), EqExcept k B B' → k ∈ l.map UnitRow.uid →
      upsertAll B l = upsertAll B' l := by
  induction l with
  | nil => intro B B' _ hk; simp at hk
  | cons v l ih =>
    intro B B' h hk
    by_cases hv : v.uid = k
    · show upsertAll (upsertUnit B v) l = upsertAll (upsertUnit B' v) l
      rw [eqExcept_upsertUnit_eq k B B' v h hv]
    · have hk' : k ∈ l.map UnitRow.uid := by
        simp only [List.map_cons, List.mem_cons] at hk
        rcases hk with hk | hk
        · exact absurd hk.symm hv
        · exact hk
      exact ih (upsertUnit B v) (upsertUnit B' v)
        (eqExcept_upsertUnit k B B' v h) hk'

lemma eqExcept_upsert_present (A : Store) (u : UnitRow)
    (hmem : u.uid ∈ A.map UnitRow.uid) :
    EqExcept u.uid (upsertUnit A u) A := by
  have hany : (List.any A fun e => decide (e.uid = u.uid)) = true := by
    rcases List.mem_map.mp hmem with ⟨e, he, hk⟩
    exact List.any_eq_true.mpr ⟨e, he, by simp [hk]⟩
  unfold upsertUnit
  rw [if_pos hany]
  refine eqExcept_refl_map u.uid _ ?_ ?_ A
  · intro e
    by_cases h : e.uid = u.uid
    · rw [if_pos h]; exact h.symm
    · rw [if_neg h]
  · intro e h
    rw [if_neg h]

/-- Replaying a batch over a store that already contains it is the
identity: upserting the same unit list twice gives the same store as
upserting it once (overwrite-by-id semantics). -/
theorem upsertAll_idem (l : List UnitRow) :
    ∀ s : Store, upsertAll (upsertAll s l) l = upsertAll s l := by
  induction l with
  | nil => intro s; rfl
  | cons u l ih =>
    intro s
    show upsertAll (upsertUnit (upsertAll (upsertUnit s u) l) u) l =
      upsertAll (upsertUnit s u) l
    have hkeyA : u.uid ∈ (upsertAll (upsertUnit s u) l).map UnitRow.uid :=
      keys_upsertAll_mono l (upsertUnit s u) u.uid (uid_mem_upsertUnit s u)
    by_cases hmem : u.uid ∈ l.map UnitRow.uid
    · have hEE := eqExcept_upsert_present (upsertAll (upsertUnit s u) l) u hkeyA
      rw [eqExcept_replay u.uid l _ _ hEE hmem]
      exact ih (upsertUnit s u)
    · have hAll : AllEqAt u.uid u (upsertAll (upsertUnit s u) l) := by
        refine allEqAt_upsertAll l (upsertUnit s u) u u.uid
          (allEqAt_upsertUnit_self s u) ?_
        intro v hv hvk
        exact hmem (hvk ▸ List.mem_map_of_mem UnitRow.uid hv)
      rw [upsertUnit_self_noop _ u hAll hkeyA]
      exact ih (upsertUnit s u)

lemma qa_units_uid (embed : String → List ℚ) (vid : String) :
    ∀ (qs : List QaPair) (i : ℕ),
      (qa_units embed vid i qs).map UnitRow.uid = qa_ids_spec vid i qs := by
  intro qs
  induction qs with
  | nil => intro i; rfl
  | cons qa rest ih =>
    intro i
    obtain ⟨oq, oa⟩ := qa
    cases oq <;> cases oa <;>
      simp only [qa_units, qa_ids_spec] <;> (try split_ifs) <;>
        simp [ih]

lemma units_of_record_uid (embed : String → List ℚ) (r : TranscriptRecord) :
    (units_of_record embed r).map UnitRow.uid = unit_ids_spec r := by
  obtain ⟨vid, oi, oc, qs⟩ := r
  cases oi <;> cases oc <;>
    simp only [units_of_record, unit_ids_spec] <;> (try split_ifs) <;>
      simp [qa_units_uid]

lemma load_uid_spec (embed : String → List ℚ) (files : List TranscriptRecord) :
    (load_structured_transcripts files embed).map UnitRow.uid =
      files.flatMap unit_ids_spec := by
  induction files with
  | nil => rfl
  | cons r rest ih =>
    simp only [load_structured_transcripts, List.flatMap_cons,
      List.map_append] at ih ⊢
    rw [units_of_record_uid embed r, ih]

lemma qa_units_doc (e1 e2 : String → List ℚ) (vid : String) :
    ∀ (qs : List QaPair) (i : ℕ),
      (qa_units e1 vid i qs).map UnitRow.doc =
        (qa_units e2 vid i qs).map UnitRow.doc := by
  intro qs
  induction qs with
  | nil => intro i; rfl
  | cons qa rest ih =>
    intro i
    obtain ⟨oq, oa⟩ := qa
    cases oq <;> cases oa <;>
      simp only [qa_units] <;> (try split_ifs) <;>
        simp [ih]

lemma load_doc_indep (e1 e2 : String → List ℚ)
    (files : List TranscriptRecord) :
    (load_structured_transcripts files e1).map UnitRow.doc =
      (load_structured_transcripts files e2).map UnitRow.doc := by
  induction files with
  | nil => rfl
  | cons r rest ih =>
    have hr : (units_of_record e1 r).map UnitRow.doc =
        (units_of_record e2 r).map UnitRow.doc := by
      obtain ⟨vid, oi, oc, qs⟩ := r
      cases oi <;> cases oc <;>
        simp only [units_of_record] <;> (try split_ifs) <;>
          simp [qa_units_doc e1 e2]
    simp only [load_structured_transcripts, List.flatMap_cons,
      List.map_append] at ih ⊢
    rw [hr, ih]

/-- C4: re-running ingestion on unchanged structured transcript inputs is
idempotent: the produced unit ids are the deterministic scheme
video_id_introduction / video_id_conversation / video_id_question_n /
video_id_answer_n (1-indexed), independent of the embedding outcomes (as
are the stored documents), and replaying the same batch through the
overwrite-by-id store leaves the same stored content and the same count,
so re-running after a partial failure is safe. -/
theorem c4_reingestion_idempotent :
    ∀ (files : List TranscriptRecord) (embed embed2 : String → List ℚ)
      (s : Store),
      (load_structured_transcripts files embed).map UnitRow.uid =
        files.flatMap unit_ids_spec ∧
      (load_structured_transcripts files embed).map UnitRow.uid =
        (load_structured_transcripts files embed2).map UnitRow.uid ∧
      (load_structured_transcripts files embed).map UnitRow.doc =
        (load_structured_transcripts files embed2).map UnitRow.doc ∧
      upsertAll (upsertAll s (load_structured_transcripts files embed))
          (load_structured_transcripts files embed) =
        upsertAll s (load_structured_transcripts files embed) ∧
      (upsertAll (upsertAll s (load_structured_transcripts files embed))
          (load_structured_transcripts files embed)).length =
        (upsertAll s (load_structured_transcripts files embed)).length := by
  intro files embed embed2 s
  refine ⟨load_uid_spec embed files, ?_, load_doc_indep embed embed2 files,
    upsertAll_idem (load_structured_transcripts files embed) s, ?_⟩
  · rw [load_uid_spec embed files, load_uid_spec embed2 files]
  · rw [upsertAll_idem (load_structured_transcripts files embed) s]
